import Mathlib

/-!
Shallow embedding of the two pallets of the repository
(`src/staking.rs` and `src/governance.rs`).

The Rust code is generic over a `StakingConfig` supplying an `AccountId`
type (hashable, comparable, cloneable) and a `Balance` type with checked
arithmetic; the repository's runtime and its tests instantiate both with
`u64`.  We embed accounts as an arbitrary type `A` with decidable
equality and balances as `Nat`, with the `u64` checked arithmetic made
explicit via the bound `2 ^ 64` (`checked_add` fails exactly when the
mathematical sum does not fit in a `u64`; `checked_sub` fails exactly on
underflow).  Rust `HashMap`s are embedded as functions to `Option`
(`staking`, `proposals`) and, where entry counting matters (`votes`), as
association lists with HashMap insert/lookup semantics.  A fallible Rust
method `fn f(&mut self, ...) -> Result<T, &'static str>` becomes a Lean
function returning `Except String T × State`: the error strings are the
literal ones of the source, and an error path returns the unchanged
state, exactly as the Rust early returns do.
-/

/-- The number of values of a Rust `u64`: checked arithmetic on the
balance type fails at this bound. -/
def U64_LIMIT : Nat := 2 ^ 64

/-- Rust `u64::checked_add`: `some (a + b)` when the sum fits in a
`u64`, `none` on overflow. -/
def checked_add (a b : Nat) : Option Nat :=
  if a + b < U64_LIMIT then some (a + b) else none

/-- Rust `u64::checked_sub`: `some (a - b)` when `b ≤ a`, `none` on
underflow. -/
def checked_sub (a b : Nat) : Option Nat :=
  if b ≤ a then some (a - b) else none

/-- `HashMap::insert` on a map embedded as a function to `Option`:
overwrites the value at key `k`, leaves every other key unchanged. -/
def mapInsert {K V : Type} [DecidableEq K] (m : K → Option V) (k : K) (v : V) :
    K → Option V :=
  fun x => if x = k then some v else m x

/-- `StakingPallet<T>` of `src/staking.rs`: the two balance maps.
An absent entry is read as zero by the getters. -/
structure StakingPallet (A : Type) where
  free_balances : A → Option Nat
  staked_balances : A → Option Nat

/-- `StakingPallet::new`: both maps empty. -/
def StakingPallet.new {A : Type} : StakingPallet A :=
  ⟨fun _ => none, fun _ => none⟩

/-- `get_free_balance`: the free-balance entry, defaulting to zero for
an unknown account. -/
def StakingPallet.get_free_balance {A : Type} (s : StakingPallet A) (who : A) : Nat :=
  (s.free_balances who).getD 0

/-- `get_staked_balance`: the staked-balance entry, defaulting to zero
for an unknown account. -/
def StakingPallet.get_staked_balance {A : Type} (s : StakingPallet A) (who : A) : Nat :=
  (s.staked_balances who).getD 0

/-- `set_balance`: unconditionally insert `amount` as the free balance
of `who`.  The Rust method returns `()` and has no error path, so the
embedding is a total function on states. -/
def StakingPallet.set_balance {A : Type} [DecidableEq A]
    (s : StakingPallet A) (who : A) (amount : Nat) : StakingPallet A :=
  ⟨mapInsert s.free_balances who amount, s.staked_balances⟩

/-- `stake`: move `amount` from free to staked.  Checked subtraction on
the free balance first (error string `"not enough funds"`), then checked
addition on the staked balance (error string `"overflow"`); only when
both succeed are the two maps updated. -/
def StakingPallet.stake {A : Type} [DecidableEq A]
    (s : StakingPallet A) (who : A) (amount : Nat) :
    Except String Unit × StakingPallet A :=
  let data_free_balance := s.get_free_balance who
  let data_staked_balance := s.get_staked_balance who
  match checked_sub data_free_balance amount with
  | none => (Except.error "not enough funds", s)
  | some validate_free_balance =>
    match checked_add data_staked_balance amount with
    | none => (Except.error "overflow", s)
    | some validate_staked_balance =>
      (Except.ok (),
        ⟨mapInsert s.free_balances who validate_free_balance,
         mapInsert s.staked_balances who validate_staked_balance⟩)

/-- `unstake`: move `amount` from staked to free.  Checked subtraction
on the staked balance first (error string `"not enough funds"`), then
checked addition on the free balance (error string `"overvlow"`, the
source's literal spelling); only when both succeed are the maps
updated. -/
def StakingPallet.unstake {A : Type} [DecidableEq A]
    (s : StakingPallet A) (who : A) (amount : Nat) :
    Except String Unit × StakingPallet A :=
  let data_staked_balance := s.get_staked_balance who
  let data_free_balance := s.get_free_balance who
  match checked_sub data_staked_balance amount with
  | none => (Except.error "not enough funds", s)
  | some validate_staked_balance =>
    match checked_add data_free_balance amount with
    | none => (Except.error "overvlow", s)
    | some validate_free_balance =>
      (Except.ok (),
        ⟨mapInsert s.free_balances who validate_free_balance,
         mapInsert s.staked_balances who validate_staked_balance⟩)

/-- A stake or unstake call on the one tracked account, for stating
properties of call sequences. -/
inductive StakeOp where
  | stake (amount : Nat)
  | unstake (amount : Nat)

/-- Run a sequence of stake/unstake calls of account `who`; `some` of
the final state when every call succeeds, `none` as soon as one
fails. -/
def runOps {A : Type} [DecidableEq A] (who : A) :
    StakingPallet A → List StakeOp → Option (StakingPallet A)
  | s, [] => some s
  | s, StakeOp.stake n :: rest =>
    match s.stake who n with
    | (Except.ok _, t) => runOps who t rest
    | (Except.error _, _) => none
  | s, StakeOp.unstake n :: rest =>
    match s.unstake who n with
    | (Except.ok _, t) => runOps who t rest
    | (Except.error _, _) => none

/-- `ProposalStatus` of `src/governance.rs`. -/
inductive ProposalStatus where
  | Active
  | Approved
  | Rejected
deriving DecidableEq

/-- `Proposal` of `src/governance.rs`.  The vote counters are `u32` in
the source, incremented only by `+= 1` on each recorded vote; we embed
them as `Nat` (each vote inserts a fresh key into the `votes` map, so a
counter equals a number of map entries and inherits its bound). -/
structure Proposal where
  description : String
  yes_votes : Nat
  no_votes : Nat
  status : ProposalStatus
deriving DecidableEq

/-- `HashMap::contains_key` on the `votes` map embedded as an
association list. -/
def votesContains {A : Type} [DecidableEq A]
    (votes : List ((A × Nat) × Bool)) (k : A × Nat) : Bool :=
  votes.any fun kv => kv.1 = k

/-- `HashMap::insert` on the `votes` map embedded as an association
list: drop any existing entry at the key, then prepend the new one. -/
def votesInsert {A : Type} [DecidableEq A]
    (votes : List ((A × Nat) × Bool)) (k : A × Nat) (v : Bool) :
    List ((A × Nat) × Bool) :=
  (k, v) :: votes.filter fun kv => kv.1 ≠ k

/-- `GovernancePallet<T>` of `src/governance.rs`: the proposal registry,
the `(voter, proposal_id) → bool` vote map, and the id counter. -/
structure GovernancePallet (A : Type) where
  proposals : Nat → Option Proposal
  votes : List ((A × Nat) × Bool)
  next_proposal_id : Nat

/-- `GovernancePallet::new`: empty maps, counter at zero. -/
def GovernancePallet.new {A : Type} : GovernancePallet A :=
  ⟨fun _ => none, [], 0⟩

/-- `create_proposal`: take the current `next_proposal_id`, increment
the counter, store a fresh Active proposal with zero votes under that
id, and return `Ok` of the id.  The `_creator` argument is ignored by
the source. -/
def GovernancePallet.create_proposal {A : Type}
    (g : GovernancePallet A) (_creator : A) (description : String) :
    Except String Nat × GovernancePallet A :=
  let proposal_id := g.next_proposal_id
  (Except.ok proposal_id,
    ⟨mapInsert g.proposals proposal_id ⟨description, 0, 0, ProposalStatus.Active⟩,
     g.votes, proposal_id + 1⟩)

/-- `vote_on_proposal`: first the uniqueness check on the
`(voter, proposal_id)` key (error string `"You can only vote once"`),
then the proposal lookup (error string `"Proposal not found"`); on
success record the vote and bump the matching counter by one. -/
def GovernancePallet.vote_on_proposal {A : Type} [DecidableEq A]
    (g : GovernancePallet A) (voter : A) (proposal_id : Nat) (vote_type : Bool) :
    Except String Unit × GovernancePallet A :=
  if votesContains g.votes (voter, proposal_id) then
    (Except.error "You can only vote once", g)
  else
    match g.proposals proposal_id with
    | some proposal =>
      let updated : Proposal :=
        if vote_type then
          ⟨proposal.description, proposal.yes_votes + 1, proposal.no_votes,
           proposal.status⟩
        else
          ⟨proposal.description, proposal.yes_votes, proposal.no_votes + 1,
           proposal.status⟩
      (Except.ok (),
        ⟨mapInsert g.proposals proposal_id updated,
         votesInsert g.votes (voter, proposal_id) vote_type,
         g.next_proposal_id⟩)
    | none => (Except.error "Proposal not found", g)

/-- `get_proposal`: pure lookup in the registry. -/
def GovernancePallet.get_proposal {A : Type}
    (g : GovernancePallet A) (proposal_id : Nat) : Option Proposal :=
  g.proposals proposal_id

/-- `finalize_proposal`: on a present proposal, set its status to
Approved when `yes_votes > no_votes` and to Rejected otherwise, and
return `Ok` of the new status; on an absent id, error string
`"Proposal not found"`. -/
def GovernancePallet.finalize_proposal {A : Type} [DecidableEq A]
    (g : GovernancePallet A) (proposal_id : Nat) :
    Except String ProposalStatus × GovernancePallet A :=
  match g.proposals proposal_id with
  | some proposal =>
    let newStatus :=
      if proposal.yes_votes > proposal.no_votes then ProposalStatus.Approved
      else ProposalStatus.Rejected
    (Except.ok newStatus,
      ⟨mapInsert g.proposals proposal_id
         ⟨proposal.description, proposal.yes_votes, proposal.no_votes, newStatus⟩,
       g.votes, g.next_proposal_id⟩)
  | none => (Except.error "Proposal not found", g)

/-- The states of a `GovernancePallet` reachable from `new` by any
sequence of calls of the public interface (`get_proposal` is pure and
does not change the state; a failing call returns the unchanged
state). -/
inductive GovReachable {A : Type} [DecidableEq A] : GovernancePallet A → Prop where
  | new : GovReachable GovernancePallet.new
  | create (g : GovernancePallet A) (creator : A) (description : String) :
      GovReachable g → GovReachable (g.create_proposal creator description).2
  | vote (g : GovernancePallet A) (voter : A) (proposal_id : Nat) (vote_type : Bool) :
      GovReachable g → GovReachable (g.vote_on_proposal voter proposal_id vote_type).2
  | finalize (g : GovernancePallet A) (proposal_id : Nat) :
      GovReachable g → GovReachable (g.finalize_proposal proposal_id).2

/-- The number of entries of the `votes` map whose key carries proposal
id `p`. -/
def votesForProposal {A : Type} (votes : List ((A × Nat) × Bool)) (p : Nat) : Nat :=
  (votes.filter fun kv => kv.1.2 = p).length

example :
    ((StakingPallet.new : StakingPallet Nat).set_balance 1 1000).get_free_balance 1
      = 1000 := by decide

example :
    ((((StakingPallet.new : StakingPallet Nat).set_balance 1 1000).stake 1 400).2).get_free_balance 1
      = 600 := by decide

example :
    ((((StakingPallet.new : StakingPallet Nat).set_balance 1 1000).stake 1 400).2).get_staked_balance 1
      = 400 := by decide

example :
    ((GovernancePallet.new : GovernancePallet Nat).create_proposal 1 "d").1
      = Except.ok 0 := rfl

example :
    (((((GovernancePallet.new : GovernancePallet Nat).create_proposal 1 "d").2).vote_on_proposal
        1 0 true).2).proposals 0 = some ⟨"d", 1, 0, ProposalStatus.Active⟩ := by decide

example :
    ((((((GovernancePallet.new : GovernancePallet Nat).create_proposal 1 "d").2).vote_on_proposal
        1 0 true).2).finalize_proposal 0).1 = Except.ok ProposalStatus.Approved := rfl

lemma mapInsert_apply_self {K V : Type} [DecidableEq K] (m : K → Option V) (k : K) (v : V) :
    mapInsert m k v k = some v := by
  simp [mapInsert]

lemma mapInsert_apply_other {K V : Type} [DecidableEq K] (m : K → Option V) (k x : K) (v : V)
    (h : x ≠ k) : mapInsert m k v x = m x := by
  simp [mapInsert, h]

lemma mapInsert_self_eq {K V : Type} [DecidableEq K] (m : K → Option V) (k : K) (v : V)
    (h : m k = some v) : mapInsert m k v = m := by
  funext x
  by_cases hx : x = k
  · subst hx; simp [mapInsert, h]
  · simp [mapInsert, hx]

lemma stake_ok_elim {A : Type} [DecidableEq A] {s t : StakingPallet A} {a : A} {n : Nat}
    (h : s.stake a n = (Except.ok (), t)) :
    n ≤ s.get_free_balance a ∧ s.get_staked_balance a + n < U64_LIMIT ∧
    t = ⟨mapInsert s.free_balances a (s.get_free_balance a - n),
         mapInsert s.staked_balances a (s.get_staked_balance a + n)⟩ := by
  by_cases h1 : n ≤ s.get_free_balance a
  · by_cases h2 : s.get_staked_balance a + n < U64_LIMIT
    · refine ⟨h1, h2, ?_⟩
      simp [StakingPallet.stake, checked_sub, checked_add, h1, h2] at h
      exact h.symm
    · simp [StakingPallet.stake, checked_sub, checked_add, h1, h2] at h
  · simp [StakingPallet.stake, checked_sub, h1] at h

lemma unstake_ok_elim {A : Type} [DecidableEq A] {s t : StakingPallet A} {a : A} {n : Nat}
    (h : s.unstake a n = (Except.ok (), t)) :
    n ≤ s.get_staked_balance a ∧ s.get_free_balance a + n < U64_LIMIT ∧
    t = ⟨mapInsert s.free_balances a (s.get_free_balance a + n),
         mapInsert s.staked_balances a (s.get_staked_balance a - n)⟩ := by
  by_cases h1 : n ≤ s.get_staked_balance a
  · by_cases h2 : s.get_free_balance a + n < U64_LIMIT
    · refine ⟨h1, h2, ?_⟩
      simp [StakingPallet.unstake, checked_sub, checked_add, h1, h2] at h
      exact h.symm
    · simp [StakingPallet.unstake, checked_sub, checked_add, h1, h2] at h
  · simp [StakingPallet.unstake, checked_sub, h1] at h

lemma get_free_mk_insert {A : Type} [DecidableEq A]
    (m1 m2 : A → Option Nat) (a : A) (v : Nat) :
    (StakingPallet.mk (mapInsert m1 a v) m2).get_free_balance a = v := by
  simp [StakingPallet.get_free_balance, mapInsert]

lemma get_staked_mk_insert {A : Type} [DecidableEq A]
    (m1 m2 : A → Option Nat) (a : A) (v : Nat) :
    (StakingPallet.mk m1 (mapInsert m2 a v)).get_staked_balance a = v := by
  simp [StakingPallet.get_staked_balance, mapInsert]

/-- C10: `set_balance(a, v)` sets the free balance of `a` to exactly
`v` (overwriting, not adding), is total (the Rust method has no error
path), leaves the staked balance of every account unchanged, and leaves
the free balance of every other account unchanged. -/
theorem set_balance_spec {A : Type} [DecidableEq A]
    (s : StakingPallet A) (a b : A) (v : Nat) (hb : b ≠ a) :
    (s.set_balance a v).get_free_balance a = v
  ∧ (∀ c : A, (s.set_balance a v).get_staked_balance c = s.get_staked_balance c)
  ∧ (s.set_balance a v).get_free_balance b = s.get_free_balance b := by
  refine ⟨?_, fun c => ?_, ?_⟩
  · simp [StakingPallet.set_balance, StakingPallet.get_free_balance, mapInsert]
  · simp [StakingPallet.set_balance, StakingPallet.get_staked_balance]
  · simp [StakingPallet.set_balance, StakingPallet.get_free_balance, mapInsert, hb]

theorem set_balance_spec_witness :
    ((StakingPallet.new : StakingPallet Nat).set_balance 1 5).get_free_balance 1 = 5
  ∧ ((StakingPallet.new : StakingPallet Nat).set_balance 1 5).get_staked_balance 3
      = (StakingPallet.new : StakingPallet Nat).get_staked_balance 3
  ∧ ((StakingPallet.new : StakingPallet Nat).set_balance 1 5).get_free_balance 2
      = (StakingPallet.new : StakingPallet Nat).get_free_balance 2 :=
  ⟨(set_balance_spec StakingPallet.new 1 2 5 (by decide)).1,
   (set_balance_spec StakingPallet.new 1 2 5 (by decide)).2.1 3,
   (set_balance_spec StakingPallet.new 1 2 5 (by decide)).2.2⟩

/-- C4: when the `votes` map already has an entry for
`(voter, proposal_id)`, `vote_on_proposal` fails with the
already-voted error and returns the state unchanged (so every vote
count is unchanged).  The theorem has no hypothesis about the proposal
registry at all: the uniqueness check runs before the proposal lookup,
so the already-voted error takes precedence over the not-found
error. -/
theorem vote_already_voted {A : Type} [DecidableEq A]
    (g : GovernancePallet A) (voter : A) (p : Nat) (c : Bool)
    (h : votesContains g.votes (voter, p) = true) :
    g.vote_on_proposal voter p c = (Except.error "You can only vote once", g) := by
  simp [GovernancePallet.vote_on_proposal, h]

/-- A governance state holding one recorded vote on proposal id 5 while
no proposal with id 5 exists, exercising the precedence of the
already-voted check over the proposal lookup. -/
def govDangling : GovernancePallet Nat :=
  ⟨fun _ => none, [((1, 5), true)], 0⟩

theorem vote_already_voted_witness :
    govDangling.vote_on_proposal 1 5 false
      = (Except.error "You can only vote once", govDangling) :=
  vote_already_voted govDangling 1 5 false (by decide)

/-- C3: a successful `stake(a, n)` followed by a successful
`unstake(a, n)` restores the free and staked balances of `a` to their
pre-stake values exactly. -/
theorem stake_unstake_roundtrip {A : Type} [DecidableEq A]
    (s s1 s2 : StakingPallet A) (a : A) (n : Nat)
    (h1 : s.stake a n = (Except.ok (), s1))
    (h2 : s1.unstake a n = (Except.ok (), s2)) :
    s2.get_free_balance a = s.get_free_balance a
  ∧ s2.get_staked_balance a = s.get_staked_balance a := by
  obtain ⟨hn, hov, ht⟩ := stake_ok_elim h1
  subst ht
  obtain ⟨hn2, hov2, ht2⟩ := unstake_ok_elim h2
  subst ht2
  rw [get_free_mk_insert, get_staked_mk_insert, get_free_mk_insert, get_staked_mk_insert]
  constructor <;> omega

theorem stake_unstake_roundtrip_witness :
    (((((StakingPallet.new : StakingPallet Nat).set_balance 1 1000).stake 1 400).2).unstake
        1 400).2.get_free_balance 1
      = ((StakingPallet.new : StakingPallet Nat).set_balance 1 1000).get_free_balance 1
  ∧ (((((StakingPallet.new : StakingPallet Nat).set_balance 1 1000).stake 1 400).2).unstake
        1 400).2.get_staked_balance 1
      = ((StakingPallet.new : StakingPallet Nat).set_balance 1 1000).get_staked_balance 1 :=
  stake_unstake_roundtrip ((StakingPallet.new : StakingPallet Nat).set_balance 1 1000)
    ((((StakingPallet.new : StakingPallet Nat).set_balance 1 1000).stake 1 400).2)
    (((((StakingPallet.new : StakingPallet Nat).set_balance 1 1000).stake 1 400).2).unstake
        1 400).2 1 400 rfl rfl

lemma runOps_sum {A : Type} [DecidableEq A] (who : A) (ops : List StakeOp) :
    ∀ s t : StakingPallet A, runOps who s ops = some t →
      t.get_free_balance who + t.get_staked_balance who
        = s.get_free_balance who + s.get_staked_balance who := by
  induction ops with
  | nil =>
    intro s t h
    simp [runOps] at h
    subst h; rfl
  | cons op rest ih =>
    intro s t h
    cases op with
    | stake n =>
      rcases hr : s.stake who n with ⟨res, u⟩
      cases res with
      | ok val =>
        cases val
        obtain ⟨hn, hov, hu⟩ := stake_ok_elim hr
        rw [runOps, hr] at h
        have hrest := ih u t h
        subst hu
        rw [get_free_mk_insert, get_staked_mk_insert] at hrest
        omega
      | error e =>
        rw [runOps, hr] at h
        simp at h
    | unstake n =>
      rcases hr : s.unstake who n with ⟨res, u⟩
      cases res with
      | ok val =>
        cases val
        obtain ⟨hn, hov, hu⟩ := unstake_ok_elim hr
        rw [runOps, hr] at h
        have hrest := ih u t h
        subst hu
        rw [get_free_mk_insert, get_staked_mk_insert] at hrest
        omega
      | error e =>
        rw [runOps, hr] at h
        simp at h

/-- C1 (amended): after `set_balance(a, v)` and a sequence of
stake/unstake calls of `a` that all succeed, the free plus staked
balance of `a` equals `v` plus the staked balance `a` held at the
`set_balance` call — in particular it equals `v` exactly when that
staked balance was zero (e.g. on a fresh pallet).  The claim as frozen
omits the pre-existing staked balance; `set_balance` only overwrites
the free balance. -/
theorem staking_conservation {A : Type} [DecidableEq A]
    (s t : StakingPallet A) (a : A) (v : Nat) (ops : List StakeOp)
    (h : runOps a (s.set_balance a v) ops = some t) :
    t.get_free_balance a + t.get_staked_balance a = v + s.get_staked_balance a := by
  have hsum := runOps_sum a ops (s.set_balance a v) t h
  have hfree : (s.set_balance a v).get_free_balance a = v := by
    simp [StakingPallet.set_balance, StakingPallet.get_free_balance, mapInsert]
  have hstaked : (s.set_balance a v).get_staked_balance a = s.get_staked_balance a := by
    simp [StakingPallet.set_balance, StakingPallet.get_staked_balance]
  omega

theorem staking_conservation_witness :
    ((runOps 1 ((StakingPallet.new : StakingPallet Nat).set_balance 1 1000)
          [StakeOp.stake 400, StakeOp.unstake 100]).getD StakingPallet.new).get_free_balance 1
      + ((runOps 1 ((StakingPallet.new : StakingPallet Nat).set_balance 1 1000)
          [StakeOp.stake 400, StakeOp.unstake 100]).getD StakingPallet.new).get_staked_balance 1
      = 1000 + (StakingPallet.new : StakingPallet Nat).get_staked_balance 1 :=
  staking_conservation StakingPallet.new
    ((runOps 1 ((StakingPallet.new : StakingPallet Nat).set_balance 1 1000)
        [StakeOp.stake 400, StakeOp.unstake 100]).getD StakingPallet.new)
    1 1000 [StakeOp.stake 400, StakeOp.unstake 100] rfl

/-- C1 counterexample: with account 1 holding staked 40 from an earlier
stake, a `set_balance(1, 100)` followed by the all-successful sequence
`[stake 10]` leaves `free + staked = 140`, not the value `100` set by
the most recent `set_balance`: the claim as frozen is false when the
account's staked balance at the `set_balance` call is nonzero. -/
theorem staking_conservation_counterexample :
    (runOps 1 ((((StakingPallet.new : StakingPallet Nat).set_balance 1 100).stake
          1 40).2.set_balance 1 100) [StakeOp.stake 10]).isSome = true
  ∧ ((runOps 1 ((((StakingPallet.new : StakingPallet Nat).set_balance 1 100).stake
          1 40).2.set_balance 1 100) [StakeOp.stake 10]).getD
        StakingPallet.new).get_free_balance 1
      + ((runOps 1 ((((StakingPallet.new : StakingPallet Nat).set_balance 1 100).stake
          1 40).2.set_balance 1 100) [StakeOp.stake 10]).getD
        StakingPallet.new).get_staked_balance 1 = 140
  ∧ (140 : Nat) ≠ 100 := by
  refine ⟨by decide, by decide, by decide⟩

/-- C2 (amended): `stake(a, n)` fails with the insufficient-funds error
whenever `n` exceeds the free balance; `unstake(a, n)` fails with the
insufficient-funds error whenever `n` exceeds the staked balance, and
with the overflow error whenever `n` is at most the staked balance and
the free-balance addition would overflow a `u64` (the staked-balance
underflow check runs first, so when both conditions hold the error is
the insufficient-funds one, not the overflow one); and every failed
stake or unstake call returns the state — both balance maps —
unchanged. -/
theorem stake_unstake_error_spec {A : Type} [DecidableEq A]
    (s : StakingPallet A) (a : A) (n : Nat) :
    (s.get_free_balance a < n → s.stake a n = (Except.error "not enough funds", s))
  ∧ (s.get_staked_balance a < n → s.unstake a n = (Except.error "not enough funds", s))
  ∧ (n ≤ s.get_staked_balance a → U64_LIMIT ≤ s.get_free_balance a + n →
      s.unstake a n = (Except.error "overvlow", s))
  ∧ (∀ (e : String) (t : StakingPallet A), s.stake a n = (Except.error e, t) → t = s)
  ∧ (∀ (e : String) (t : StakingPallet A), s.unstake a n = (Except.error e, t) → t = s) := by
  refine ⟨?_, ?_, ?_, ?_, ?_⟩
  · intro h
    have hn : ¬ n ≤ s.get_free_balance a := by omega
    simp [StakingPallet.stake, checked_sub, hn]
  · intro h
    have hn : ¬ n ≤ s.get_staked_balance a := by omega
    simp [StakingPallet.unstake, checked_sub, hn]
  · intro h1 h2
    have hn : ¬ s.get_free_balance a + n < U64_LIMIT := by omega
    simp [StakingPallet.unstake, checked_sub, checked_add, h1, hn]
  · intro e t h
    by_cases h1 : n ≤ s.get_free_balance a
    · by_cases h2 : s.get_staked_balance a + n < U64_LIMIT
      · simp [StakingPallet.stake, checked_sub, checked_add, h1, h2] at h
      · simp [StakingPallet.stake, checked_sub, checked_add, h1, h2] at h
        exact h.2.symm
    · simp [StakingPallet.stake, checked_sub, h1] at h
      exact h.2.symm
  · intro e t h
    by_cases h1 : n ≤ s.get_staked_balance a
    · by_cases h2 : s.get_free_balance a + n < U64_LIMIT
      · simp [StakingPallet.unstake, checked_sub, checked_add, h1, h2] at h
      · simp [StakingPallet.unstake, checked_sub, checked_add, h1, h2] at h
        exact h.2.symm
    · simp [StakingPallet.unstake, checked_sub, h1] at h
      exact h.2.symm

theorem stake_unstake_error_spec_witness :
    ((StakingPallet.new : StakingPallet Nat).set_balance 2 500).stake 2 600
      = (Except.error "not enough funds",
         (StakingPallet.new : StakingPallet Nat).set_balance 2 500) :=
  (stake_unstake_error_spec ((StakingPallet.new : StakingPallet Nat).set_balance 2 500)
      2 600).1 (by decide)

/-- C2 counterexample: with free balance `2 ^ 64 - 1` and staked
balance `0`, `unstake(1, 1)` satisfies both failure conditions of the
frozen claim — `1` exceeds the staked balance and the free-balance
addition `(2 ^ 64 - 1) + 1` overflows a `u64` — yet the call fails
with the insufficient-funds error, not the overflow error: the frozen
claim's unconditional "fails with Overflow whenever the free-balance
addition would overflow" is false. -/
theorem unstake_overflow_counterexample :
    ((StakingPallet.new : StakingPallet Nat).set_balance 1 (U64_LIMIT - 1)).get_staked_balance 1 < 1
  ∧ U64_LIMIT ≤
      ((StakingPallet.new : StakingPallet Nat).set_balance 1 (U64_LIMIT - 1)).get_free_balance 1 + 1
  ∧ (((StakingPallet.new : StakingPallet Nat).set_balance 1 (U64_LIMIT - 1)).unstake 1 1).1
      = Except.error "not enough funds"
  ∧ ("not enough funds" : String) ≠ "overvlow" := by
  refine ⟨by decide, by decide, rfl, by decide⟩

lemma finalize_eq_some {A : Type} [DecidableEq A]
    (g : GovernancePallet A) (p : Nat) (prop : Proposal)
    (hp : g.proposals p = some prop) :
    g.finalize_proposal p =
      (Except.ok (if prop.yes_votes > prop.no_votes then ProposalStatus.Approved
                  else ProposalStatus.Rejected),
       ⟨mapInsert g.proposals p
          ⟨prop.description, prop.yes_votes, prop.no_votes,
           if prop.yes_votes > prop.no_votes then ProposalStatus.Approved
           else ProposalStatus.Rejected⟩,
        g.votes, g.next_proposal_id⟩) := by
  simp [GovernancePallet.finalize_proposal, hp]

/-- C5: on a present proposal, `finalize_proposal` stores and returns
Approved exactly when `yes_votes > no_votes` and Rejected otherwise
(so a tie resolves to Rejected); on an absent id it fails with the
proposal-not-found error and leaves the state unchanged. -/
theorem finalize_proposal_spec {A : Type} [DecidableEq A]
    (g : GovernancePallet A) (p : Nat) :
    (∀ prop : Proposal, g.proposals p = some prop →
        g.finalize_proposal p =
          (Except.ok (if prop.yes_votes > prop.no_votes then ProposalStatus.Approved
                      else ProposalStatus.Rejected),
           ⟨mapInsert g.proposals p
              ⟨prop.description, prop.yes_votes, prop.no_votes,
               if prop.yes_votes > prop.no_votes then ProposalStatus.Approved
               else ProposalStatus.Rejected⟩,
            g.votes, g.next_proposal_id⟩))
  ∧ (g.proposals p = none → g.finalize_proposal p = (Except.error "Proposal not found", g)) := by
  constructor
  · intro prop hp
    simp [GovernancePallet.finalize_proposal, hp]
  · intro hp
    simp [GovernancePallet.finalize_proposal, hp]

/-- A governance state holding one proposal, id 0, tied at three yes
votes and three no votes. -/
def govTie : GovernancePallet Nat :=
  ⟨mapInsert (fun _ => none) 0 ⟨"tie", 3, 3, ProposalStatus.Active⟩, [], 1⟩

theorem finalize_proposal_spec_witness :
    govTie.finalize_proposal 0 =
      (Except.ok ProposalStatus.Rejected,
       ⟨mapInsert govTie.proposals 0 ⟨"tie", 3, 3, ProposalStatus.Rejected⟩,
        govTie.votes, govTie.next_proposal_id⟩)
  ∧ govTie.finalize_proposal 7 = (Except.error "Proposal not found", govTie) :=
  ⟨by
      have h := (finalize_proposal_spec govTie 0).1 ⟨"tie", 3, 3, ProposalStatus.Active⟩ rfl
      simpa using h,
   (finalize_proposal_spec govTie 7).2 rfl⟩

/-- C6 (amended): `create_proposal(creator, description)` always
succeeds, returns the current `next_proposal_id`, stores under that id
an Active proposal with the given description and zero yes and no
votes, increments `next_proposal_id` by one, and changes nothing else —
but the creator identity is NOT recorded anywhere: the source ignores
the `_creator` argument, so the result is identical for every
creator. -/
theorem create_proposal_spec {A : Type}
    (g : GovernancePallet A) (creator : A) (description : String) :
    (g.create_proposal creator description).1 = Except.ok g.next_proposal_id
  ∧ ((g.create_proposal creator description).2).proposals g.next_proposal_id
      = some ⟨description, 0, 0, ProposalStatus.Active⟩
  ∧ ((g.create_proposal creator description).2).next_proposal_id = g.next_proposal_id + 1
  ∧ (∀ q : Nat, q ≠ g.next_proposal_id →
      ((g.create_proposal creator description).2).proposals q = g.proposals q)
  ∧ ((g.create_proposal creator description).2).votes = g.votes
  ∧ (∀ other : A, g.create_proposal other description = g.create_proposal creator description) := by
  refine ⟨rfl, ?_, rfl, fun q hq => ?_, rfl, fun other => rfl⟩
  · simp [GovernancePallet.create_proposal, mapInsert]
  · simp [GovernancePallet.create_proposal, mapInsert, hq]

theorem create_proposal_spec_witness :
    ((GovernancePallet.new : GovernancePallet Nat).create_proposal 7 "hello").1 = Except.ok 0
  ∧ (((GovernancePallet.new : GovernancePallet Nat).create_proposal 7 "hello").2).proposals 0
      = some ⟨"hello", 0, 0, ProposalStatus.Active⟩
  ∧ (((GovernancePallet.new : GovernancePallet Nat).create_proposal 7 "hello").2).proposals 3
      = (GovernancePallet.new : GovernancePallet Nat).proposals 3 :=
  ⟨(create_proposal_spec GovernancePallet.new 7 "hello").1,
   (create_proposal_spec GovernancePallet.new 7 "hello").2.1,
   (create_proposal_spec GovernancePallet.new 7 "hello").2.2.2.1 3 (by decide)⟩

/-- C6 counterexample: creating a proposal with creator 1 and with
creator 2 yields the byte-for-byte identical return value and state —
the creator identity is nowhere in the result, so the frozen claim's
"records the creator identity for provenance" is false. -/
theorem create_proposal_counterexample :
    (GovernancePallet.new : GovernancePallet Nat).create_proposal 1 "d"
      = (GovernancePallet.new : GovernancePallet Nat).create_proposal 2 "d"
  ∧ (1 : Nat) ≠ 2 :=
  ⟨rfl, by decide⟩

/-- C8: when `finalize_proposal(p)` succeeds with status `st`, calling
it again immediately (no votes in between) succeeds, returns the same
`st`, and leaves the whole state — in particular the proposal —
unchanged. -/
theorem finalize_proposal_idempotent {A : Type} [DecidableEq A]
    (g g1 : GovernancePallet A) (p : Nat) (st : ProposalStatus)
    (h : g.finalize_proposal p = (Except.ok st, g1)) :
    g1.finalize_proposal p = (Except.ok st, g1) := by
  rcases hp : g.proposals p with _ | prop
  · simp [GovernancePallet.finalize_proposal, hp] at h
  · simp only [GovernancePallet.finalize_proposal, hp] at h
    obtain ⟨hst, hg1⟩ := Prod.mk.injEq .. ▸ h
    have hst2 : (if prop.yes_votes > prop.no_votes then ProposalStatus.Approved
        else ProposalStatus.Rejected) = st := by
      cases hst; rfl
    subst hg1
    have hlook : (mapInsert g.proposals p
        ⟨prop.description, prop.yes_votes, prop.no_votes,
         if prop.yes_votes > prop.no_votes then ProposalStatus.Approved
         else ProposalStatus.Rejected⟩) p
        = some ⟨prop.description, prop.yes_votes, prop.no_votes, st⟩ := by
      rw [mapInsert_apply_self, hst2]
    simp only [GovernancePallet.finalize_proposal, hlook]
    rw [mapInsert_self_eq _ _ _ (by rw [hlook, hst2])]
    simp [hst2]

theorem finalize_proposal_idempotent_witness :
    ((govTie.finalize_proposal 0).2).finalize_proposal 0
      = (Except.ok ProposalStatus.Rejected, (govTie.finalize_proposal 0).2) :=
  finalize_proposal_idempotent govTie (govTie.finalize_proposal 0).2 0
    ProposalStatus.Rejected rfl

/-- A governance state whose single proposal, id 0, has already been
finalized (status Rejected on zero votes), for voting after
finalization. -/
def govFinalized : GovernancePallet Nat :=
  ((((GovernancePallet.new : GovernancePallet Nat).create_proposal 1 "d").2).finalize_proposal 0).2

/-- C9: `vote_on_proposal` never consults the proposal status: on a
proposal already Approved or Rejected, a first vote by an account still
succeeds and bumps exactly the chosen counter by one, and
`finalize_proposal` still succeeds on the result; moreover there is a
concrete run where the second finalization returns a different outcome
than the first (finalize to Rejected on no votes, vote yes, finalize
again to Approved). -/
theorem vote_ignores_status {A : Type} [DecidableEq A]
    (g : GovernancePallet A) (voter : A) (p : Nat) (prop : Proposal) (c : Bool)
    (hp : g.proposals p = some prop)
    (hst : prop.status = ProposalStatus.Approved ∨ prop.status = ProposalStatus.Rejected)
    (hv : votesContains g.votes (voter, p) = false) :
    (g.vote_on_proposal voter p c).1 = Except.ok ()
  ∧ ((g.vote_on_proposal voter p c).2).proposals p
      = some (if c then ⟨prop.description, prop.yes_votes + 1, prop.no_votes, prop.status⟩
              else ⟨prop.description, prop.yes_votes, prop.no_votes + 1, prop.status⟩)
  ∧ (∃ (st : ProposalStatus) (g2 : GovernancePallet A),
      ((g.vote_on_proposal voter p c).2).finalize_proposal p = (Except.ok st, g2))
  ∧ (govFinalized.finalize_proposal 0).1 = Except.ok ProposalStatus.Rejected
  ∧ ((((govFinalized.vote_on_proposal 2 0 true).2).finalize_proposal 0).1
      = Except.ok ProposalStatus.Approved) := by
  have hvote : (g.vote_on_proposal voter p c).2 =
      ⟨mapInsert g.proposals p
        (if c then ⟨prop.description, prop.yes_votes + 1, prop.no_votes, prop.status⟩
         else ⟨prop.description, prop.yes_votes, prop.no_votes + 1, prop.status⟩),
       votesInsert g.votes (voter, p) c, g.next_proposal_id⟩ := by
    cases c <;> simp [GovernancePallet.vote_on_proposal, hv, hp]
  have hlook : ((g.vote_on_proposal voter p c).2).proposals p
      = some (if c then ⟨prop.description, prop.yes_votes + 1, prop.no_votes, prop.status⟩
              else ⟨prop.description, prop.yes_votes, prop.no_votes + 1, prop.status⟩) := by
    rw [hvote]
    exact mapInsert_apply_self _ _ _
  refine ⟨?_, hlook, ?_, rfl, rfl⟩
  · cases c <;> simp [GovernancePallet.vote_on_proposal, hv, hp]
  · exact ⟨_, _, finalize_eq_some _ p _ hlook⟩

theorem vote_ignores_status_witness :
    (govFinalized.vote_on_proposal 3 0 true).1 = Except.ok () :=
  (vote_ignores_status govFinalized 3 0 ⟨"d", 0, 0, ProposalStatus.Rejected⟩ true rfl
    (Or.inr rfl) rfl).1

/-- The counters-match-the-vote-map property of one state: every stored
proposal's `yes_votes + no_votes` equals the number of `votes` entries
keyed by its id. -/
def CountsMatchVotes {A : Type} (g : GovernancePallet A) : Prop :=
  ∀ (p : Nat) (prop : Proposal), g.proposals p = some prop →
    prop.yes_votes + prop.no_votes = votesForProposal g.votes p

/-- The auxiliary bookkeeping invariant carried through the induction:
counters match the vote map, every recorded vote names a proposal id
below the counter, and every id at or above the counter is free. -/
def GovInv {A : Type} (g : GovernancePallet A) : Prop :=
  CountsMatchVotes g
  ∧ (∀ kv ∈ g.votes, kv.1.2 < g.next_proposal_id)
  ∧ (∀ p : Nat, g.next_proposal_id ≤ p → g.proposals p = none)

lemma votesForProposal_eq_zero {A : Type}
    (votes : List ((A × Nat) × Bool)) (p : Nat)
    (h : ∀ kv ∈ votes, kv.1.2 ≠ p) : votesForProposal votes p = 0 := by
  simp only [votesForProposal, List.length_eq_zero, List.filter_eq_nil_iff]
  intro kv hkv
  simpa using h kv hkv

lemma votesInsert_not_mem {A : Type} [DecidableEq A]
    (votes : List ((A × Nat) × Bool)) (k : A × Nat) (v : Bool)
    (h : votesContains votes k = false) :
    votesInsert votes k v = (k, v) :: votes := by
  simp only [votesInsert, List.cons.injEq, true_and]
  apply List.filter_eq_self.mpr
  intro kv hkv
  simp only [votesContains, List.any_eq_false] at h
  simpa using h kv hkv

lemma votesForProposal_cons_same {A : Type}
    (votes : List ((A × Nat) × Bool)) (a : A) (p : Nat) (v : Bool) :
    votesForProposal (((a, p), v) :: votes) p = votesForProposal votes p + 1 := by
  simp [votesForProposal, List.filter]

lemma votesForProposal_cons_other {A : Type}
    (votes : List ((A × Nat) × Bool)) (a : A) (p q : Nat) (v : Bool)
    (h : p ≠ q) :
    votesForProposal (((a, p), v) :: votes) q = votesForProposal votes q := by
  simp [votesForProposal, List.filter, h]

lemma govInv_new {A : Type} [DecidableEq A] : GovInv (GovernancePallet.new : GovernancePallet A) := by
  refine ⟨fun p prop hp => ?_, fun kv hkv => ?_, fun p _ => rfl⟩
  · simp [GovernancePallet.new] at hp
  · simp [GovernancePallet.new] at hkv

/-- The proposal value stored back by a successful vote: the chosen
counter bumped by one, all else kept. -/
def updatedProposal (prop : Proposal) (c : Bool) : Proposal :=
  if c then ⟨prop.description, prop.yes_votes + 1, prop.no_votes, prop.status⟩
  else ⟨prop.description, prop.yes_votes, prop.no_votes + 1, prop.status⟩

lemma updatedProposal_sum (prop : Proposal) (c : Bool) :
    (updatedProposal prop c).yes_votes + (updatedProposal prop c).no_votes
      = prop.yes_votes + prop.no_votes + 1 := by
  cases c <;> simp [updatedProposal] <;> omega

lemma create_fields {A : Type} (g : GovernancePallet A) (creator : A) (description : String) :
    (g.create_proposal creator description).2.proposals
        = mapInsert g.proposals g.next_proposal_id ⟨description, 0, 0, ProposalStatus.Active⟩
  ∧ (g.create_proposal creator description).2.votes = g.votes
  ∧ (g.create_proposal creator description).2.next_proposal_id = g.next_proposal_id + 1 :=
  ⟨rfl, rfl, rfl⟩

lemma vote_state_already {A : Type} [DecidableEq A]
    (g : GovernancePallet A) (voter : A) (p : Nat) (c : Bool)
    (h : votesContains g.votes (voter, p) = true) :
    (g.vote_on_proposal voter p c).2 = g := by
  simp [GovernancePallet.vote_on_proposal, h]

lemma vote_state_notfound {A : Type} [DecidableEq A]
    (g : GovernancePallet A) (voter : A) (p : Nat) (c : Bool)
    (hcv : votesContains g.votes (voter, p) = false) (hp : g.proposals p = none) :
    (g.vote_on_proposal voter p c).2 = g := by
  simp [GovernancePallet.vote_on_proposal, hcv, hp]

lemma vote_fields_success {A : Type} [DecidableEq A]
    (g : GovernancePallet A) (voter : A) (p : Nat) (c : Bool) (prop : Proposal)
    (hcv : votesContains g.votes (voter, p) = false) (hp : g.proposals p = some prop) :
    (g.vote_on_proposal voter p c).2.proposals
        = mapInsert g.proposals p (updatedProposal prop c)
  ∧ (g.vote_on_proposal voter p c).2.votes = ((voter, p), c) :: g.votes
  ∧ (g.vote_on_proposal voter p c).2.next_proposal_id = g.next_proposal_id := by
  have hvi := votesInsert_not_mem g.votes (voter, p) c hcv
  cases c <;> simp [GovernancePallet.vote_on_proposal, updatedProposal, hcv, hp, hvi]

lemma finalize_fields_some {A : Type} [DecidableEq A]
    (g : GovernancePallet A) (p : Nat) (prop : Proposal)
    (hp : g.proposals p = some prop) :
    (g.finalize_proposal p).2.proposals
        = mapInsert g.proposals p
            ⟨prop.description, prop.yes_votes, prop.no_votes,
             if prop.yes_votes > prop.no_votes then ProposalStatus.Approved
             else ProposalStatus.Rejected⟩
  ∧ (g.finalize_proposal p).2.votes = g.votes
  ∧ (g.finalize_proposal p).2.next_proposal_id = g.next_proposal_id := by
  rw [finalize_eq_some g p prop hp]
  exact ⟨rfl, rfl, rfl⟩

lemma finalize_state_none {A : Type} [DecidableEq A]
    (g : GovernancePallet A) (p : Nat) (hp : g.proposals p = none) :
    (g.finalize_proposal p).2 = g := by
  simp [GovernancePallet.finalize_proposal, hp]

lemma govInv_create {A : Type} [DecidableEq A]
    (g : GovernancePallet A) (creator : A) (description : String)
    (h : GovInv g) : GovInv (g.create_proposal creator description).2 := by
  obtain ⟨hcounts, hvb, hpb⟩ := h
  obtain ⟨hprops, hvotes, hnext⟩ := create_fields g creator description
  refine ⟨fun p prop hp => ?_, fun kv hkv => ?_, fun p hge => ?_⟩
  · rw [hprops] at hp
    rw [hvotes]
    by_cases hpe : p = g.next_proposal_id
    · rw [hpe, mapInsert_apply_self] at hp
      injection hp with hp2
      subst hp2
      have hz : votesForProposal g.votes p = 0 :=
        votesForProposal_eq_zero g.votes p fun kv hkv => by
          rw [hpe]
          exact Nat.ne_of_lt (hvb kv hkv)
      simpa using hz.symm
    · rw [mapInsert_apply_other _ _ _ _ hpe] at hp
      exact hcounts p prop hp
  · rw [hvotes] at hkv
    rw [hnext]
    exact Nat.lt_succ_of_lt (hvb kv hkv)
  · rw [hnext] at hge
    rw [hprops]
    have hne : p ≠ g.next_proposal_id := by omega
    rw [mapInsert_apply_other _ _ _ _ hne]
    exact hpb p (by omega)

lemma govInv_vote {A : Type} [DecidableEq A]
    (g : GovernancePallet A) (voter : A) (p : Nat) (c : Bool)
    (h : GovInv g) : GovInv (g.vote_on_proposal voter p c).2 := by
  obtain ⟨hcounts, hvb, hpb⟩ := h
  cases hx : votesContains g.votes (voter, p) with
  | true =>
    rw [vote_state_already g voter p c hx]
    exact ⟨hcounts, hvb, hpb⟩
  | false =>
    rcases hp : g.proposals p with _ | prop
    · rw [vote_state_notfound g voter p c hx hp]
      exact ⟨hcounts, hvb, hpb⟩
    · have hplt : p < g.next_proposal_id := by
        by_contra hge
        rw [hpb p (by omega)] at hp
        cases hp
      obtain ⟨hprops, hvotes, hnext⟩ := vote_fields_success g voter p c prop hx hp
      refine ⟨fun q propq hq => ?_, fun kv hkv => ?_, fun q hge => ?_⟩
      · rw [hprops] at hq
        rw [hvotes]
        by_cases hqe : q = p
        · rw [hqe, mapInsert_apply_self] at hq
          injection hq with hq2
          subst hq2
          rw [hqe, votesForProposal_cons_same, updatedProposal_sum]
          have hbase := hcounts p prop hp
          omega
        · rw [mapInsert_apply_other _ _ _ _ hqe] at hq
          rw [votesForProposal_cons_other _ _ _ _ _ fun he => hqe he.symm]
          exact hcounts q propq hq
      · rw [hvotes] at hkv
        rw [hnext]
        rcases List.mem_cons.mp hkv with hkv1 | hkv2
        · rw [hkv1]
          exact hplt
        · exact hvb kv hkv2
      · rw [hnext] at hge
        rw [hprops]
        have hne : q ≠ p := by omega
        rw [mapInsert_apply_other _ _ _ _ hne]
        exact hpb q hge

lemma govInv_finalize {A : Type} [DecidableEq A]
    (g : GovernancePallet A) (p : Nat)
    (h : GovInv g) : GovInv (g.finalize_proposal p).2 := by
  obtain ⟨hcounts, hvb, hpb⟩ := h
  rcases hp : g.proposals p with _ | prop
  · rw [finalize_state_none g p hp]
    exact ⟨hcounts, hvb, hpb⟩
  · have hplt : p < g.next_proposal_id := by
      by_contra hge
      rw [hpb p (by omega)] at hp
      cases hp
    obtain ⟨hprops, hvotes, hnext⟩ := finalize_fields_some g p prop hp
    refine ⟨fun q propq hq => ?_, fun kv hkv => ?_, fun q hge => ?_⟩
    · rw [hprops] at hq
      rw [hvotes]
      by_cases hqe : q = p
      · rw [hqe, mapInsert_apply_self] at hq
        injection hq with hq2
        subst hq2
        rw [hqe]
        simpa using hcounts p prop hp
      · rw [mapInsert_apply_other _ _ _ _ hqe] at hq
        exact hcounts q propq hq
    · rw [hvotes] at hkv
      rw [hnext]
      exact hvb kv hkv
    · rw [hnext] at hge
      rw [hprops]
      have hne : q ≠ p := by omega
      rw [mapInsert_apply_other _ _ _ _ hne]
      exact hpb q hge

lemma govReachable_inv {A : Type} [DecidableEq A]
    (g : GovernancePallet A) (h : GovReachable g) : GovInv g := by
  induction h with
  | new => exact govInv_new
  | create g creator description _ ih => exact govInv_create g creator description ih
  | vote g voter p c _ ih => exact govInv_vote g voter p c ih
  | finalize g p _ ih => exact govInv_finalize g p ih

/-- C7: in every state reachable from a fresh pallet by any sequence of
`create_proposal`, `vote_on_proposal`, `get_proposal` and
`finalize_proposal` calls, each stored proposal's `yes_votes + no_votes`
equals the number of `votes` entries keyed by its id (`get_proposal` is
pure and does not change the state). -/
theorem governance_vote_count_invariant {A : Type} [DecidableEq A]
    (g : GovernancePallet A) (hg : GovReachable g) (p : Nat) (prop : Proposal)
    (hp : g.proposals p = some prop) :
    prop.yes_votes + prop.no_votes = votesForProposal g.votes p :=
  (govReachable_inv g hg).1 p prop hp

/-- A reachable governance state: one proposal with one yes vote. -/
def govVoted : GovernancePallet Nat :=
  ((((GovernancePallet.new : GovernancePallet Nat).create_proposal 1 "d").2).vote_on_proposal
    1 0 true).2

theorem governance_vote_count_invariant_witness :
    (1 : Nat) + 0 = votesForProposal govVoted.votes 0 :=
  governance_vote_count_invariant govVoted
    (GovReachable.vote _ 1 0 true (GovReachable.create _ 1 "d" GovReachable.new))
    0 ⟨"d", 1, 0, ProposalStatus.Active⟩ rfl
